import Mathlib

/-!
Verification of the document indexing and retrieval engine of the `ravana`
repository (`src/services/chroma_db.py`) against its natural-language
specification.  The Python code is shallowly embedded: pure fragments become
Lean functions, fallible fragments return `Except PyErr`, and the external
collaborators (tiktoken, itertools, the Chroma vector store) are modelled at
their documented interface boundary.
-/

set_option autoImplicit false

namespace Ravana

/-- Python exceptions that the embedded code can raise. -/
inductive PyErr where
  | keyError (key : String)
  | valueError (msg : String)
  | typeError (msg : String)
  | assertionError
  | exception (msg : String)
deriving Repr, DecidableEq

instance {ε α : Type} [DecidableEq ε] [DecidableEq α] : DecidableEq (Except ε α) := fun x y =>
  match x, y with
  | .ok a, .ok b =>
    if h : a = b then .isTrue (by rw [h])
    else .isFalse (by intro hc; injection hc; contradiction)
  | .error e, .error f =>
    if h : e = f then .isTrue (by rw [h])
    else .isFalse (by intro hc; injection hc; contradiction)
  | .ok _, .error _ => .isFalse (by intro hc; exact Except.noConfusion hc)
  | .error _, .ok _ => .isFalse (by intro hc; exact Except.noConfusion hc)

/-- Rendering of an exception inside an f-string, as in Python `str(e)`
(`str(KeyError(k))` shows the key; other exceptions show their message). -/
def errStr : PyErr → String
  | .keyError k => k
  | .valueError m => m
  | .typeError m => m
  | .assertionError => ""
  | .exception m => m

/-- Metadata dictionaries `Dict[str, str]` are modelled as association lists. -/
abbrev Md := List (String × String)

/-- Rendering of a metadata dict inside an f-string.  The exact punctuation of
Python dict repr is immaterial to the claims; what matters is that the
record's metadata value is embedded in the message. -/
def mdStr (md : Md) : String :=
  String.intercalate ", " (md.map (fun kv => kv.1 ++ ": " ++ kv.2))

/-- Python dict subscription `d[key]`: raises `KeyError(key)` when absent. -/
def keyGet {α : Type} (key : String) (v : Option α) : Except PyErr α :=
  match v with
  | some a => .ok a
  | none => .error (.keyError key)

/-- Sequential effectful map, modelling a Python `for` loop or list
comprehension: the first raised exception aborts the whole computation. -/
def mapE {α β : Type} (f : α → Except PyErr β) : List α → Except PyErr (List β)
  | [] => .ok []
  | a :: l =>
    match f a with
    | .error e => .error e
    | .ok b =>
      match mapE f l with
      | .error e => .error e
      | .ok bs => .ok (b :: bs)

/-- Collects a list of optional values; `none` when any entry is `none`. -/
def allSome {α : Type} : List (Option α) → Option (List α)
  | [] => some []
  | none :: _ => none
  | some a :: l => (allSome l).map (a :: ·)

/-- A JSON record `{"document": ..., "metadata": ...}` as loaded by
`initialize_db` or built by `add_search_results`; a missing key is `none`. -/
structure FileJson where
  document : Option String
  metadata : Option Md
deriving Repr, DecidableEq

/-- CPython list slice `l[start::step]` for a positive `step`: the elements at
indices `start, start + step, start + 2*step, ...` below `l.length`; there are
exactly `ceil((len - start) / step)` of them. -/
def pySliceStepPos {α : Type} (l : List α) (start step : Nat) : List α :=
  ((List.range ((l.length - start + (step - 1)) / step)).map
      (fun j => start + j * step)).filterMap (fun i => l[i]?)

/-- CPython list slice `l[start::step]` for a negative step `-k`: the elements
at indices `min start (len - 1), ... - k, ...` down to `0`. -/
def pySliceStepNeg {α : Type} (l : List α) (start k : Nat) : List α :=
  if l.isEmpty then []
  else
    ((List.range (min start (l.length - 1) / k + 1)).map
        (fun j => min start (l.length - 1) - j * k)).filterMap (fun i => l[i]?)

/-- CPython list slice `l[start::step]` for an arbitrary integer step;
`step = 0` raises `ValueError`, exactly as in `document[i::chunk_size - overlap]`
when `overlap = chunk_size`. -/
def pySlice {α : Type} (l : List α) (start : Nat) (step : Int) : Except PyErr (List α) :=
  if step = 0 then .error (.valueError "slice step cannot be zero")
  else if 0 < step then .ok (pySliceStepPos l start step.toNat)
  else .ok (pySliceStepNeg l start (-step).toNat)

/-- Number of rows produced by `itertools.zip_longest`: the length of the
longest column. -/
def maxColLen {α : Type} (cols : List (List α)) : Nat :=
  (cols.map List.length).foldr max 0

/-- Model of `itertools.zip_longest(*cols)` with fill value `None`: row `j`
pairs the `j`-th element of every column (`none` once a column is exhausted),
and rows are produced while at least one column is alive. -/
def zipLongest {α : Type} (cols : List (List α)) : List (List (Option α)) :=
  (List.range (maxColLen cols)).map (fun j => cols.map (fun col => col[j]?))

/-- The body of `_yield_chunks` in `get_chunks_and_metadatas`:
`tuple(i for i in x if i is not None) if x[-1] is None else x`. -/
def processRow {α : Type} [DecidableEq α] (x : List (Option α)) : List (Option α) :=
  if x.getLast? = some none then x.filter (fun o => !o.isNone) else x

/-- Python `self.decode(x)` applied to a yielded tuple: tiktoken `decode`
requires a sequence of ints and raises `TypeError` on a `None` entry. -/
def tupleDecode (dec : List Nat → String) (x : List (Option Nat)) : Except PyErr String :=
  match allSome x with
  | some toks => .ok (dec toks)
  | none => .error (.typeError "expected int, found NoneType")

/-- Core of `get_chunks_and_metadatas` on an already-encoded token list: builds
the columns `document[i::chunk_size - overlap]` for `i in range(chunk_size)`,
zips them into windows via `zip_longest`, post-processes each row as
`_yield_chunks` does, and decodes every window. -/
def chunksCore (dec : List Nat → String) (chunk_size overlap : Nat)
    (document : List Nat) : Except PyErr (List String) :=
  match mapE (fun i => pySlice document i ((chunk_size : Int) - (overlap : Int)))
      (List.range chunk_size) with
  | .error e => .error e
  | .ok cols => mapE (tupleDecode dec) ((zipLongest cols).map processRow)

/-- Embedding of `ChromaDBService.get_chunks_and_metadatas` for a service whose
tokenizer name resolved to the codec `(enc, dec)` (the lambdas installed in
`__init__` call `tiktoken.get_encoding` and then encode/decode).  Evaluation
order follows the Python source: `file_json["document"]` is read first, the
chunks are computed next, and `file_json["metadata"]` is read last. -/
def get_chunks_and_metadatas (enc : String → List Nat) (dec : List Nat → String)
    (chunk_size overlap : Nat) (file_json : FileJson) :
    Except PyErr (List String × List Md) :=
  match keyGet "document" file_json.document with
  | .error e => .error e
  | .ok docText =>
    match chunksCore dec chunk_size overlap (enc docText) with
    | .error e => .error e
    | .ok chunks =>
      match keyGet "metadata" file_json.metadata with
      | .error e => .error e
      | .ok md => .ok (chunks, List.replicate chunks.length md)

/-- Reference description of the sliding windows: window `j` is the token
slice starting at offset `j * stride` of length at most `chunk_size`, and
there are `ceil(length / stride)` windows. -/
def windowsSpec (chunk_size stride : Nat) (d : List Nat) : List (List Nat) :=
  (List.range ((d.length + stride - 1) / stride)).map
    (fun j => (d.drop (j * stride)).take chunk_size)

/-- Toy tokenizer used for concrete witnesses: one token per character. -/
def charEnc (s : String) : List Nat := s.data.map Char.toNat

/-- Toy detokenizer inverse to `charEnc`. -/
def charDec (l : List Nat) : String := String.mk (l.map Char.ofNat)

/-- Number of windows the chunker actually produces on a token sequence of
length `L` with stride `s`: `ceil(L / s)`. -/
def numWindows (s L : Nat) : Nat := (L + s - 1) / s

/-- Token window `i`: the slice of length at most `chunk_size` starting at
offset `i * stride`. -/
def windowTokens (chunk_size stride : Nat) (d : List Nat) (i : Nat) : List Nat :=
  (d.drop (i * stride)).take chunk_size

/-! ### Batched `add_documents` (claims C3, C5, C10) -/

/-- The module constant `_BATCH_SIZE = 200` of `chroma_db.py`. -/
def BATCH_SIZE : Nat := 200

/-- Model of `itertools.batched(l, n)` for `n ≥ 1` (documented semantics:
successive groups of `n` items in order; the final group may be shorter). -/
def batched {α : Type} (n : Nat) (l : List α) : List (List α) :=
  (List.range ((l.length + n - 1) / n)).map (fun j => (l.drop (j * n)).take n)

/-- One call to the external `collection.add(documents=..., metadatas=...,
ids=...)`; the store itself is out of scope, so a call record is the
observable effect. -/
structure AddCall where
  documents : List (Option String)
  metadatas : List Md
  ids : List String
deriving Repr, DecidableEq

/-- Embedding of `ChromaDBService.add_documents`.  Mirrors the source line by
line: generate UUID ids when absent (`uuid.uuid4` is abstracted by the
injected generator `gen`), default metadatas, `assert not any(d is None for d
in documents)`, then zip the three batched lists and issue one store call per
triple.  Returns the full id list together with the store calls issued. -/
def add_documents (gen : Nat → String) (B : Nat) (documents : List (Option String))
    (metadatas : Option (List Md)) (ids : Option (List String)) :
    Except PyErr (List String × List AddCall) :=
  let ids' : List String :=
    match ids with
    | none => (List.range documents.length).map gen
    | some i => i
  let metadatas' : List Md :=
    match metadatas with
    | none => List.replicate documents.length ([] : Md)
    | some m => m
  if documents.any (fun d => d.isNone) then .error .assertionError
  else
    .ok (ids',
      ((batched B documents).zip ((batched B metadatas').zip (batched B ids'))).map
        (fun x => { documents := x.1, metadatas := x.2.1, ids := x.2.2 }))

/-- Deterministic stand-in for `uuid.uuid4` in concrete witnesses. -/
def genU (n : Nat) : String := toString n

/-! ### Search-result ingestion, file ingestion, construction, query -/

/-- Modelled from the spec: the `SearchResultItem` record of §3
(`{url, title (optional), content (optional), query}`); its defining module
`src/agents/types.py` is not part of the analysed sources. -/
structure SearchResultItem where
  url : String
  title : Option String
  content : Option String
  query : String
deriving Repr, DecidableEq

/-- Python `sr.title or ""`: `None` and the empty string are falsy. -/
def pyOrEmpty : Option String → String
  | none => ""
  | some s => if s = "" then "" else s

/-- The metadata dict `{"title": sr.title or "", "url": sr.url}` built by
`add_search_results` for one search-result item. -/
def itemMd (sr : SearchResultItem) : Md :=
  [("title", pyOrEmpty sr.title), ("url", sr.url)]

/-- The document record `{"document": sr.content, "metadata": {...}}` built by
`add_search_results` for one surviving item. -/
def itemDoc (sr : SearchResultItem) : FileJson :=
  { document := sr.content, metadata := some (itemMd sr) }

/-- Embedding of `ChromaDBService.add_search_results` (tokenizer resolved to
`(enc, dec)`): filter out items with `None` content, assert the remainder is
nonempty, chunk every surviving item and hand the combined lists to
`add_documents` with the module batch size. -/
def add_search_results (gen : Nat → String) (enc : String → List Nat)
    (dec : List Nat → String) (C O : Nat) (search_results : List SearchResultItem) :
    Except PyErr (List String × List AddCall) :=
  let non_null := search_results.filter (fun sr => sr.content.isSome)
  let docs := non_null.map itemDoc
  if 0 < docs.length then
    match mapE (get_chunks_and_metadatas enc dec C O) docs with
    | .error e => .error e
    | .ok pairs =>
      add_documents gen BATCH_SIZE ((pairs.map Prod.fst).flatten.map some)
        (some ((pairs.map Prod.snd).flatten)) none
  else .error .assertionError

/-- Embedding of `ChromaDBService.initialize_db` on the already-loaded JSON
records (file reading is external I/O).  Each record is chunked inside a
`try/except`; on failure the handler evaluates the f-string
`f"error reading file with metadata {d['metadata']}, ..."`, which itself
raises `KeyError("metadata")` when the record has no metadata.  Only after
every record chunked successfully is the single `add_documents` call made. -/
def initialize_db (gen : Nat → String) (enc : String → List Nat)
    (dec : List Nat → String) (C O : Nat) (records : List FileJson) :
    Except PyErr (List String × List AddCall) :=
  match mapE (fun d =>
      match get_chunks_and_metadatas enc dec C O d with
      | .ok v => .ok v
      | .error e =>
        .error (match d.metadata with
          | none => PyErr.keyError "metadata"
          | some md => PyErr.exception
              ("error reading file with metadata " ++ mdStr md
                ++ ", details follow ... " ++ errStr e))) records with
  | .error e => .error e
  | .ok pairs =>
    add_documents gen BATCH_SIZE ((pairs.map Prod.fst).flatten.map some)
      (some ((pairs.map Prod.snd).flatten)) none

/-- An encoding object as returned by `tiktoken.get_encoding`. -/
structure Encoding where
  enc : String → List Nat
  dec : List Nat → String

/-- Model of the external `tiktoken.get_encoding`: returns the encoding for a
known name and raises `ValueError` for an unknown one.  The registry is
abstracted to the single name the configuration is expected to use, with the
toy codec standing in for the BPE tables; only the success/failure behavior
and its timing matter to the claims. -/
def tt_get_encoding (name : String) : Except PyErr Encoding :=
  if name = "cl100k_base" then .ok ⟨charEnc, charDec⟩
  else .error (.valueError ("Unknown encoding " ++ name))

/-- The fields of `Configurator.data_config` that `ChromaDBService` reads. -/
structure DataConfig where
  embedding_model : String
  embedding_model_tokenizer : String
  db_directory : String
  db_name : String
  distance_metric : String
  db_chunk_size : Nat
  db_chunk_overlap : Nat
deriving Repr, DecidableEq

/-- The configuration object handed to the service constructor. -/
structure Configurator where
  data_config : DataConfig
deriving Repr, DecidableEq

/-- The service state: `__init__` stores the configuration; the client and
collection handles are external resources. -/
structure ChromaDBService where
  config : Configurator
deriving Repr, DecidableEq

/-- Embedding of `ChromaDBService.__init__`.  The constructor stores the
configuration, creates the external embedding function, persistent client and
collection (vector-store I/O, abstracted here; none of those steps reads
`db_chunk_size`, `db_chunk_overlap` or `embedding_model_tokenizer`), and
installs `encode`/`decode`/`get_tokens` as lambdas whose bodies defer
`tiktoken.get_encoding(...)` to call time.  Hence no validation of the
tokenizer name or of `overlap < chunk_size` happens during construction, and
construction never fails for those reasons. -/
def ChromaDBService.init (config : Configurator) : Except PyErr ChromaDBService :=
  .ok { config := config }

/-- The `self.encode` lambda: resolves the tokenizer at call time, then
encodes. -/
def ChromaDBService.encode (svc : ChromaDBService) (x : String) :
    Except PyErr (List Nat) :=
  match tt_get_encoding svc.config.data_config.embedding_model_tokenizer with
  | .error e => .error e
  | .ok e => .ok (e.enc x)

/-- The `self.get_tokens` lambda: `len(self.encode(x))`. -/
def ChromaDBService.get_tokens (svc : ChromaDBService) (x : String) :
    Except PyErr Nat :=
  match svc.encode x with
  | .error e => .error e
  | .ok l => .ok l.length

/-- Service-level `get_chunks_and_metadatas`: reads `file_json["document"]`,
resolves the tokenizer through `tt_get_encoding` (the point where the
`self.encode` lambda first runs), slices, decodes, then reads
`file_json["metadata"]`. -/
def ChromaDBService.get_chunks_and_metadatas (svc : ChromaDBService)
    (file_json : FileJson) : Except PyErr (List String × List Md) :=
  match keyGet "document" file_json.document with
  | .error e => .error e
  | .ok docText =>
    match tt_get_encoding svc.config.data_config.embedding_model_tokenizer with
    | .error e => .error e
    | .ok enc =>
      match chunksCore enc.dec svc.config.data_config.db_chunk_size
          svc.config.data_config.db_chunk_overlap (enc.enc docText) with
      | .error e => .error e
      | .ok chunks =>
        match keyGet "metadata" file_json.metadata with
        | .error e => .error e
        | .ok md => .ok (chunks, List.replicate chunks.length md)

/-- A chunk as stored in the collection; `distance` is the store's metric
value for the current query (the embedding call is external, so the metric
values are data of the model). -/
structure StoredChunk where
  id : String
  text : String
  metadata : Md
  distance : Int
deriving Repr, DecidableEq

/-- The `QueryResult` schema: chunks ordered by ascending distance. -/
structure QueryResult where
  results : List StoredChunk
deriving Repr, DecidableEq

/-- The value `max(1, min(n_results, self.get_count()))` that
`ChromaDBService.query` passes to the backing store as `n_results`. -/
def nResultsPassed (n_results : Int) (count : Nat) : Int :=
  max 1 (min n_results (count : Int))

/-- Modelled from the spec: the external `collection.query` of §6 returns the
`n` nearest stored chunks ordered by ascending distance under the collection's
fixed metric. -/
def collection_query (entries : List StoredChunk) (n : Nat) : List StoredChunk :=
  (List.insertionSort (fun a b => a.distance ≤ b.distance) entries).take n

/-- Embedding of `ChromaDBService.query`: clamps the requested `n_results`,
passes it to the backing store, and wraps the returned chunks. -/
def service_query (entries : List StoredChunk) (n_results : Int) : QueryResult :=
  ⟨collection_query entries (nResultsPassed n_results entries.length).toNat⟩

instance : IsTotal StoredChunk (fun a b => a.distance ≤ b.distance) :=
  ⟨fun a b => Int.le_total a.distance b.distance⟩

instance : IsTrans StoredChunk (fun a b => a.distance ≤ b.distance) :=
  ⟨fun _ _ _ h1 h2 => le_trans h1 h2⟩

/-! ### Arithmetic and list lemmas used by the characterization proofs -/

theorem lt_ceilDiv_iff {s : Nat} (hs : 0 < s) (j M : Nat) :
    j < (M + s - 1) / s ↔ j * s < M := by
  rw [Nat.lt_iff_add_one_le, Nat.le_div_iff_mul_le hs]
  have h1 : (j + 1) * s = j * s + s := by ring
  omega

theorem mapE_ok {α β : Type} (f : α → Except PyErr β) (g : α → β) :
    ∀ l : List α, (∀ a ∈ l, f a = .ok (g a)) → mapE f l = .ok (l.map g)
  | [], _ => rfl
  | a :: l, h => by
    have ha := h a (by simp)
    have hl := mapE_ok f g l (fun x hx => h x (by simp [hx]))
    simp [mapE, ha, hl]

theorem mapE_error {α β : Type} (f : α → Except PyErr β) {e : PyErr} :
    ∀ (pre : List α) (r : α) (post : List α),
      (∀ a ∈ pre, ∃ b, f a = .ok b) → f r = .error e →
      mapE f (pre ++ r :: post) = .error e
  | [], r, post, _, hr => by simp [mapE, hr]
  | a :: pre, r, post, h, hr => by
    obtain ⟨b, hb⟩ := h a (by simp)
    have := mapE_error f pre r post (fun x hx => h x (by simp [hx])) hr
    simp [mapE, hb, this]

theorem allSome_map_some {α : Type} : ∀ l : List α, allSome (l.map some) = some l
  | [] => rfl
  | a :: l => by simp [allSome, allSome_map_some l]

theorem mapE_tupleDecode (dec : List Nat → String) :
    ∀ ws : List (List Nat),
      mapE (tupleDecode dec) (ws.map (List.map some)) = .ok (ws.map dec)
  | [] => rfl
  | w :: ws => by
    simp [mapE, tupleDecode, allSome_map_some, mapE_tupleDecode dec ws]

theorem foldr_max_le {a : Nat} : ∀ xs : List Nat, (∀ b ∈ xs, b ≤ a) → xs.foldr max 0 ≤ a
  | [], _ => Nat.zero_le a
  | x :: xs, h => by
    simp only [List.foldr_cons]
    exact max_le (h x (by simp)) (foldr_max_le xs (fun b hb => h b (by simp [hb])))

theorem filterMap_getElem?_eq_map (l : List Nat) :
    ∀ idx : List Nat, (∀ i ∈ idx, i < l.length) →
      idx.filterMap (fun i => l[i]?) = idx.map (fun i => l.getD i 0)
  | [], _ => rfl
  | i :: tl, h => by
    have hi : i < l.length := h i (by simp)
    have htl := filterMap_getElem?_eq_map l tl (fun x hx => h x (by simp [hx]))
    simp [List.filterMap_cons, List.getElem?_eq_getElem hi, htl, List.getD_eq_getElem l 0 hi]

theorem pySliceStepPos_getElem? {s : Nat} (hs : 0 < s) (l : List Nat) (start j : Nat) :
    (pySliceStepPos l start s)[j]? = l[start + j * s]? := by
  have hcnt : ∀ j' : Nat, j' < (l.length - start + (s - 1)) / s ↔ start + j' * s < l.length := by
    intro j'
    have heq : l.length - start + (s - 1) = l.length - start + s - 1 := by omega
    rw [heq, lt_ceilDiv_iff hs]
    omega
  have hvalid : ∀ i ∈ (List.range ((l.length - start + (s - 1)) / s)).map
      (fun j' => start + j' * s), i < l.length := by
    intro i hi
    simp only [List.mem_map, List.mem_range] at hi
    obtain ⟨j', hj', rfl⟩ := hi
    exact (hcnt j').mp hj'
  unfold pySliceStepPos
  rw [filterMap_getElem?_eq_map l _ hvalid, List.getElem?_map, List.getElem?_map]
  by_cases hj : j < (l.length - start + (s - 1)) / s
  · have hlt : start + j * s < l.length := (hcnt j).mp hj
    rw [List.getElem?_range hj]
    simp [List.getD_eq_getElem l 0 hlt, List.getElem?_eq_getElem hlt]
  · have hge : l.length ≤ start + j * s := by
      have := (hcnt j).not.mp hj
      omega
    have hnone : (List.range ((l.length - start + (s - 1)) / s))[j]? = none :=
      List.getElem?_eq_none (by simpa using hj)
    rw [hnone, List.getElem?_eq_none hge]
    rfl

theorem length_pySliceStepPos {s : Nat} (hs : 0 < s) (l : List Nat) (start : Nat) :
    (pySliceStepPos l start s).length = (l.length - start + (s - 1)) / s := by
  have hcnt : ∀ j' : Nat, j' < (l.length - start + (s - 1)) / s ↔ start + j' * s < l.length := by
    intro j'
    have heq : l.length - start + (s - 1) = l.length - start + s - 1 := by omega
    rw [heq, lt_ceilDiv_iff hs]
    omega
  have hvalid : ∀ i ∈ (List.range ((l.length - start + (s - 1)) / s)).map
      (fun j' => start + j' * s), i < l.length := by
    intro i hi
    simp only [List.mem_map, List.mem_range] at hi
    obtain ⟨j', hj', rfl⟩ := hi
    exact (hcnt j').mp hj'
  unfold pySliceStepPos
  rw [filterMap_getElem?_eq_map l _ hvalid]
  simp

theorem maxColLen_chunkCols {s C : Nat} (hs : 0 < s) (hC : 0 < C) (d : List Nat) :
    maxColLen ((List.range C).map (fun i => pySliceStepPos d i s))
      = (d.length + s - 1) / s := by
  obtain ⟨C', rfl⟩ : ∃ C', C = C' + 1 := ⟨C - 1, by omega⟩
  unfold maxColLen
  rw [List.range_succ_eq_map]
  simp only [List.map_cons, List.map_map, List.foldr_cons]
  have h0 : (pySliceStepPos d 0 s).length = (d.length + s - 1) / s := by
    rw [length_pySliceStepPos hs]
    congr 1
    omega
  rw [h0]
  refine Nat.max_eq_left (foldr_max_le _ ?_)
  intro b hb
  simp only [List.mem_map, List.mem_range, Function.comp] at hb
  obtain ⟨i, _, rfl⟩ := hb
  rw [length_pySliceStepPos hs]
  exact Nat.div_le_div_right (by omega)

theorem range_map_getElem? : ∀ (m : List Nat) (C : Nat),
    (List.range C).map (fun i => m[i]?)
      = (m.take C).map some ++ List.replicate (C - m.length) none
  | [], C => by
    induction C with
    | zero => rfl
    | succ C' ih =>
      rw [List.range_succ]
      simp only [List.map_append, ih]
      simp [List.replicate_succ']
  | x :: xs, C => by
    cases C with
    | zero => simp
    | succ C' =>
      rw [List.range_succ_eq_map]
      simp only [List.map_cons, List.map_map]
      have htl : ((List.range C').map ((fun i => (x :: xs)[i]?) ∘ Nat.succ))
          = (List.range C').map (fun i => xs[i]?) := by
        apply List.map_congr_left
        intro i _
        simp
      rw [htl, range_map_getElem? xs C']
      simp [List.take_succ_cons]

theorem processRow_spec {C : Nat} (m : List Nat) :
    processRow ((List.range C).map (fun i => m[i]?)) = (m.take C).map some := by
  rw [range_map_getElem?]
  unfold processRow
  by_cases h : m.length < C
  · have hk : 0 < C - m.length := by omega
    obtain ⟨k, hk'⟩ : ∃ k, C - m.length = k + 1 := ⟨C - m.length - 1, by omega⟩
    rw [hk']
    have hlast : ((m.take C).map some ++ List.replicate (k + 1) (none : Option Nat)).getLast?
        = some none := by
      rw [List.replicate_succ', ← List.append_assoc]
      exact List.getLast?_concat _
    rw [if_pos hlast, List.filter_append]
    have h1 : ((m.take C).map some).filter (fun o => !o.isNone) = (m.take C).map some := by
      apply List.filter_eq_self.mpr
      intro a ha
      obtain ⟨b, _, rfl⟩ := List.mem_map.mp ha
      rfl
    have h2 : (List.replicate (k + 1) (none : Option Nat)).filter (fun o => !o.isNone)
        = [] := by
      apply List.filter_eq_nil_iff.mpr
      intro a ha
      rw [List.eq_of_mem_replicate ha]
      simp
    rw [h1, h2, List.append_nil]
  · have hz : C - m.length = 0 := by omega
    rw [hz]
    simp only [List.replicate_zero, List.append_nil]
    have hcond : ¬ ((m.take C).map some).getLast? = some none := by
      intro hcontra
      rw [List.getLast?_eq_some_iff] at hcontra
      obtain ⟨ys, hys⟩ := hcontra
      have hmem : (none : Option Nat) ∈ (m.take C).map some := by
        rw [hys]
        simp
      obtain ⟨b, _, hb⟩ := List.mem_map.mp hmem
      exact Option.noConfusion hb
    rw [if_neg hcond]

theorem chunksCore_ok (dec : List Nat → String) {C O : Nat} (hC : 0 < C) (hO : O < C)
    (d : List Nat) :
    chunksCore dec C O d = .ok ((windowsSpec C (C - O) d).map dec) := by
  have hs : 0 < C - O := by omega
  have hstep : ((C : Int) - (O : Int)) = ((C - O : Nat) : Int) := by
    push_cast [Nat.cast_sub hO.le]
    ring
  have hcol : ∀ i ∈ List.range C,
      pySlice d i ((C : Int) - (O : Int)) = .ok (pySliceStepPos d i (C - O)) := by
    intro i _
    unfold pySlice
    rw [hstep]
    have h1 : ¬ (((C - O : Nat) : Int) = 0) := by
      simp only [Int.natCast_eq_zero]
      omega
    have h2 : (0 : Int) < ((C - O : Nat) : Int) := by
      exact_mod_cast hs
    simp [h1, h2]
  simp only [chunksCore, mapE_ok _ _ _ hcol]
  unfold zipLongest
  rw [maxColLen_chunkCols hs hC d]
  have hrow : ∀ j : Nat,
      processRow (((List.range C).map (fun i => pySliceStepPos d i (C - O))).map
          (fun col => col[j]?))
        = ((d.drop (j * (C - O))).take C).map some := by
    intro j
    rw [List.map_map]
    have hcols : ((List.range C).map ((fun col => col[j]?) ∘ fun i => pySliceStepPos d i (C - O)))
        = (List.range C).map (fun i => (d.drop (j * (C - O)))[i]?) := by
      apply List.map_congr_left
      intro i _
      simp only [Function.comp_apply]
      rw [pySliceStepPos_getElem? hs, List.getElem?_drop, Nat.add_comm]
    rw [hcols, processRow_spec]
  have hrows : ((List.range ((d.length + (C - O) - 1) / (C - O))).map
        (fun j => ((List.range C).map (fun i => pySliceStepPos d i (C - O))).map
          (fun col => col[j]?))).map processRow
      = (windowsSpec C (C - O) d).map (List.map some) := by
    rw [List.map_map]
    unfold windowsSpec
    rw [List.map_map]
    apply List.map_congr_left
    intro j _
    simp only [Function.comp_apply]
    exact hrow j
  rw [hrows]
  exact mapE_tupleDecode dec (windowsSpec C (C - O) d)

/-- Master characterization of `get_chunks_and_metadatas` on a well-formed
record: the chunks are the decoded sliding windows. -/
theorem get_chunks_eq (enc : String → List Nat) (dec : List Nat → String)
    {C O : Nat} (hC : 0 < C) (hO : O < C) (t : String) (md : Md) :
    get_chunks_and_metadatas enc dec C O ⟨some t, some md⟩
      = .ok ((windowsSpec C (C - O) (enc t)).map dec,
          List.replicate (windowsSpec C (C - O) (enc t)).length md) := by
  simp only [get_chunks_and_metadatas, keyGet, chunksCore_ok dec hC hO, List.length_map]

theorem windowsSpec_eq (C s : Nat) (d : List Nat) :
    windowsSpec C s d = (List.range (numWindows s d.length)).map (windowTokens C s d) := rfl

theorem length_windowTokens (C s : Nat) (d : List Nat) (i : Nat) :
    (windowTokens C s d i).length = min C (d.length - i * s) := by
  simp [windowTokens]

/-! ### Claim C1: shape of the sliding windows -/

/-- C1 (amended).  For `0 < C`, `0 ≤ O < C` and a nonempty token sequence of
length `L`, `get_chunks_and_metadatas` produces exactly `ceil(L / (C - O))`
windows (not `ceil((L - O) / (C - O))` as originally claimed); window `i`
starts at offset `i * (C - O)`; the last window has token length in `[1, C]`;
every window whose start offset satisfies `i*(C-O) + C ≤ L` has length exactly
`C` (windows beyond that point — possibly several, not just the last one — are
shorter); and each consecutive pair of full windows shares exactly `O`
tokens. -/
theorem chunking_windows (enc : String → List Nat) (dec : List Nat → String)
    (C O : Nat) (t : String) (md : Md) (hC : 0 < C) (hO : O < C)
    (hL : 0 < (enc t).length) :
    (get_chunks_and_metadatas enc dec C O ⟨some t, some md⟩
        = .ok ((List.range (numWindows (C - O) (enc t).length)).map
              (fun i => dec (windowTokens C (C - O) (enc t) i)),
            List.replicate (numWindows (C - O) (enc t).length) md))
    ∧ 1 ≤ (windowTokens C (C - O) (enc t) (numWindows (C - O) (enc t).length - 1)).length
    ∧ (windowTokens C (C - O) (enc t) (numWindows (C - O) (enc t).length - 1)).length ≤ C
    ∧ (∀ i, i * (C - O) + C ≤ (enc t).length →
        (windowTokens C (C - O) (enc t) i).length = C)
    ∧ (∀ i, (i + 1) * (C - O) + C ≤ (enc t).length →
        (windowTokens C (C - O) (enc t) i).drop (C - O)
            = (windowTokens C (C - O) (enc t) (i + 1)).take O
          ∧ ((windowTokens C (C - O) (enc t) i).drop (C - O)).length = O) := by
  have hs : 0 < C - O := by omega
  refine ⟨?_, ?_, ?_, ?_, ?_⟩
  · rw [get_chunks_eq enc dec hC hO, windowsSpec_eq, List.map_map]
    simp [Function.comp]
  · have h0 := lt_ceilDiv_iff hs 0 (enc t).length
    simp only [Nat.zero_mul] at h0
    have h1 := lt_ceilDiv_iff hs (((enc t).length + (C - O) - 1) / (C - O) - 1) (enc t).length
    simp only [length_windowTokens, numWindows]
    omega
  · simp only [length_windowTokens]
    omega
  · intro i h
    rw [length_windowTokens]
    omega
  · intro i h
    have hsucc : (i + 1) * (C - O) = i * (C - O) + (C - O) := by ring
    constructor
    · rw [windowTokens, windowTokens, List.drop_take C (C - O) ((enc t).drop (i * (C - O))),
        List.drop_drop, List.take_take]
      have h1 : C - (C - O) = O := by omega
      have h2 : min O C = O := by omega
      rw [h1, h2, ← hsucc]
    · rw [List.length_drop, length_windowTokens]
      omega

/-- C1 counterexample.  With a five-token document, `chunk_size = 4`,
`overlap = 3` the code produces 5 windows, while the claimed count
`ceil((L - O) / (C - O))` equals 2; moreover window 2 (`"cde"`) is neither the
last window nor of full length `C = 4`. -/
theorem chunking_windows_counterexample :
    get_chunks_and_metadatas charEnc charDec 4 3 ⟨some "abcde", some [("source", "test")]⟩
        = .ok (["abcd", "bcde", "cde", "de", "e"],
            List.replicate 5 [("source", "test")])
      ∧ ((charEnc "abcde").length - 3 + (4 - 3) - 1) / (4 - 3) = 2
      ∧ (5 : Nat) ≠ 2
      ∧ (charEnc "cde").length ≠ 4 := by
  refine ⟨by decide, by decide, by decide, by decide⟩

/-- C1 witness: the spec's own end-to-end example (8 tokens, `chunk_size = 4`,
`overlap = 1`) instantiates the amended theorem and yields the three windows
`[a-d], [d-g], [g-h]`. -/
theorem chunking_windows_witness :
    0 < (charEnc "abcdefgh").length ∧
      get_chunks_and_metadatas charEnc charDec 4 1 ⟨some "abcdefgh", some [("k", "v")]⟩
        = .ok (["abcd", "defg", "gh"], [[("k", "v")], [("k", "v")], [("k", "v")]]) := by
  refine ⟨by decide, ?_⟩
  have h := (chunking_windows charEnc charDec 4 1 "abcdefgh" [("k", "v")]
    (by decide) (by decide) (by decide)).1
  rw [h]
  decide

/-! ### Claim C2: short documents and empty documents -/

/-- C2 (amended).  A document with `0 < L ≤ chunk_size - overlap` tokens
yields exactly one chunk, equal to the decoding of the whole token sequence
(the original bound `L ≤ chunk_size` is wrong: for `C - O < L ≤ C` the code
emits additional trailing sub-windows); a document whose token sequence is
empty yields zero chunks. -/
theorem single_chunk (enc : String → List Nat) (dec : List Nat → String)
    (C O : Nat) (t u : String) (md : Md) (hC : 0 < C) (hO : O < C)
    (hL : 0 < (enc t).length) (hle : (enc t).length ≤ C - O) (hu : enc u = []) :
    get_chunks_and_metadatas enc dec C O ⟨some t, some md⟩ = .ok ([dec (enc t)], [md])
    ∧ get_chunks_and_metadatas enc dec C O ⟨some u, some md⟩ = .ok ([], []) := by
  have hs : 0 < C - O := by omega
  constructor
  · rw [get_chunks_eq enc dec hC hO]
    have h0 := lt_ceilDiv_iff hs 0 (enc t).length
    have h1 := lt_ceilDiv_iff hs 1 (enc t).length
    simp only [Nat.zero_mul, Nat.one_mul] at h0 h1
    have hn : ((enc t).length + (C - O) - 1) / (C - O) = 1 := by omega
    unfold windowsSpec
    rw [hn]
    have hr : List.range 1 = [0] := rfl
    rw [hr]
    simp only [List.map_cons, List.map_nil, Nat.zero_mul, List.drop_zero,
      List.length_cons, List.length_nil]
    rw [List.take_of_length_le (by omega)]
    rfl
  · rw [get_chunks_eq enc dec hC hO, hu]
    simp [windowsSpec, Nat.div_eq_of_lt (show C - O - 1 < C - O by omega)]

/-- C2 counterexample.  The two-token document `"ab"` with `chunk_size = 4`,
`overlap = 3` satisfies `0 < L ≤ chunk_size`, yet the code produces two chunks
(`["ab", "b"]`), not one. -/
theorem single_chunk_counterexample :
    get_chunks_and_metadatas charEnc charDec 4 3 ⟨some "ab", some [("source", "test")]⟩
        = .ok (["ab", "b"], [[("source", "test")], [("source", "test")]])
      ∧ 0 < (charEnc "ab").length
      ∧ (charEnc "ab").length ≤ 4
      ∧ (["ab", "b"] : List String).length ≠ 1 := by
  refine ⟨by decide, by decide, by decide, by decide⟩

/-- C2 witness: a three-token document with `chunk_size = 4`, `overlap = 1`
(`L = 3 ≤ C - O = 3`) gives exactly the whole document back, and the empty
document gives zero chunks. -/
theorem single_chunk_witness :
    get_chunks_and_metadatas charEnc charDec 4 1 ⟨some "abc", some [("k", "v")]⟩
        = .ok (["abc"], [[("k", "v")]])
    ∧ get_chunks_and_metadatas charEnc charDec 4 1 ⟨some "", some [("k", "v")]⟩
        = .ok ([], []) := by
  have h := single_chunk charEnc charDec 4 1 "abc" "" [("k", "v")]
    (by decide) (by decide) (by decide) (by decide) (by decide)
  have hd : charDec (charEnc "abc") = "abc" := by decide
  exact ⟨by rw [h.1, hd], h.2⟩

theorem zip_map_range_le {α β : Type} (f : Nat → α) (g : Nat → β) {m n : Nat} (h : m ≤ n) :
    ((List.range n).map f).zip ((List.range m).map g)
      = (List.range m).map (fun j => (f j, g j)) := by
  obtain ⟨d, rfl⟩ := Nat.exists_eq_add_of_le h
  rw [List.range_add, List.map_append,
    show (List.range m).map g = (List.range m).map g ++ [] by simp,
    List.zip_append (by simp)]
  simp [List.zip_map']

theorem zip_map_range_ge {α β : Type} (f : Nat → α) (g : Nat → β) {m n : Nat} (h : m ≤ n) :
    ((List.range m).map f).zip ((List.range n).map g)
      = (List.range m).map (fun j => (f j, g j)) := by
  obtain ⟨d, rfl⟩ := Nat.exists_eq_add_of_le h
  rw [List.range_add, List.map_append,
    show (List.range m).map f = (List.range m).map f ++ [] by simp,
    List.zip_append (by simp)]
  simp [List.zip_map']

theorem flatten_batched_slices {α : Type} (l : List α) (B : Nat) :
    ∀ m : Nat, ((List.range m).map (fun j => (l.drop (j * B)).take B)).flatten
      = l.take (m * B)
  | 0 => by simp
  | m + 1 => by
    rw [List.range_succ, List.map_append, List.flatten_append,
      flatten_batched_slices l B m]
    simp only [List.map_cons, List.map_nil, List.flatten_cons, List.flatten_nil,
      List.append_nil]
    rw [← List.take_add]
    congr 1
    ring

theorem map_some_no_none (docs : List String) :
    (docs.map some).any (fun d => d.isNone) = false := by
  simp

/-- C3.  With parallel lists of equal length `N` and batch size `B ≥ 1`,
`add_documents` issues exactly `ceil(N/B)` store calls, in order, call `j`
receiving the aligned slices `[j*B, j*B + B)` of all three lists (so index
correspondence is preserved and the three sublists of one call have equal
length); every non-final call has exactly `B` items and the final one has
`N mod B` (or `B` when `N mod B = 0`); the full id list — the freshly
generated ids when none were supplied — is returned. -/
theorem add_documents_batches (gen : Nat → String) (B : Nat) (docs : List String)
    (mds : List Md) (ids : List String) (hB : 0 < B)
    (h1 : mds.length = docs.length) (h2 : ids.length = docs.length) :
    (add_documents gen B (docs.map some) (some mds) (some ids)
        = .ok (ids, (List.range ((docs.length + B - 1) / B)).map
            (fun j => ⟨((docs.map some).drop (j * B)).take B,
                (mds.drop (j * B)).take B, (ids.drop (j * B)).take B⟩)))
    ∧ (add_documents gen B (docs.map some) (some mds) none
        = .ok ((List.range docs.length).map gen,
            (List.range ((docs.length + B - 1) / B)).map
              (fun j => ⟨((docs.map some).drop (j * B)).take B,
                  (mds.drop (j * B)).take B,
                  (((List.range docs.length).map gen).drop (j * B)).take B⟩)))
    ∧ (∀ j, ((((docs.map some).drop (j * B)).take B).length
            = ((mds.drop (j * B)).take B).length)
        ∧ (((mds.drop (j * B)).take B).length = ((ids.drop (j * B)).take B).length))
    ∧ (∀ j, j + 1 < (docs.length + B - 1) / B →
        (((docs.map some).drop (j * B)).take B).length = B)
    ∧ (0 < docs.length →
        (((docs.map some).drop (((docs.length + B - 1) / B - 1) * B)).take B).length
          = if docs.length % B = 0 then B else docs.length % B) := by
  have hkey : ∀ ids' : List String, ids'.length = docs.length →
      ((batched B (docs.map some)).zip
          ((batched B mds).zip (batched B ids'))).map
        (fun x => AddCall.mk x.1 x.2.1 x.2.2)
      = (List.range ((docs.length + B - 1) / B)).map
          (fun j => ⟨((docs.map some).drop (j * B)).take B,
              (mds.drop (j * B)).take B, (ids'.drop (j * B)).take B⟩) := by
    intro ids' hlen
    unfold batched
    rw [List.length_map, h1, hlen,
      zip_map_range_le _ _ (Nat.le_refl _), zip_map_range_le _ _ (Nat.le_refl _),
      List.map_map]
    rfl
  refine ⟨?_, ?_, ?_, ?_, ?_⟩
  · simp only [add_documents, map_some_no_none, Bool.false_eq_true, if_false]
    rw [hkey ids h2]
  · simp only [add_documents, map_some_no_none, Bool.false_eq_true, if_false,
      List.length_map]
    rw [hkey ((List.range docs.length).map gen) (by simp)]
  · intro j
    constructor
    · simp only [List.length_take, List.length_drop, List.length_map, h1]
    · simp only [List.length_take, List.length_drop, List.length_map, h1, h2]
  · intro j hj
    have hlt : (j + 1) * B < docs.length :=
      (lt_ceilDiv_iff hB (j + 1) docs.length).mp hj
    have hmul : (j + 1) * B = j * B + B := by ring
    simp only [List.length_take, List.length_drop, List.length_map]
    omega
  · intro hN
    have hk0 := lt_ceilDiv_iff hB 0 docs.length
    simp only [Nat.zero_mul] at hk0
    have hklt := lt_ceilDiv_iff hB ((docs.length + B - 1) / B - 1) docs.length
    have hkge := lt_ceilDiv_iff hB ((docs.length + B - 1) / B) docs.length
    have hmul : ((docs.length + B - 1) / B - 1 + 1) * B
        = ((docs.length + B - 1) / B - 1) * B + B := by ring
    have hsucc : (docs.length + B - 1) / B - 1 + 1 = (docs.length + B - 1) / B := by
      omega
    have hlow : ((docs.length + B - 1) / B - 1) * B < docs.length := hklt.mp (by omega)
    have hhigh : docs.length ≤ ((docs.length + B - 1) / B - 1) * B + B := by
      rw [← hmul, hsucc]
      exact Nat.le_of_not_lt (fun hcon => absurd (hkge.mpr hcon) (by omega))
    have hmod : (docs.length - ((docs.length + B - 1) / B - 1) * B) % B
        = docs.length % B := by
      rw [Nat.mul_comm]
      exact Nat.sub_mul_mod (by rw [Nat.mul_comm]; omega)
    simp only [List.length_take, List.length_drop, List.length_map]
    rcases Nat.lt_or_ge (docs.length - ((docs.length + B - 1) / B - 1) * B) B with hc | hc
    · rw [Nat.mod_eq_of_lt hc] at hmod
      rw [if_neg (by omega)]
      omega
    · have hexact : docs.length - ((docs.length + B - 1) / B - 1) * B = B := by omega
      rw [hexact] at hmod
      rw [if_pos (by rw [← hmod]; exact (Nat.mod_self B).symm ▸ rfl)]
      omega

/-- C3 witness: three documents with batch size 2 produce two store calls of
sizes 2 and 1, preserving order and alignment, and return the supplied ids. -/
theorem add_documents_batches_witness :
    add_documents genU 2 (["a", "b", "c"].map some)
        (some [[("s", "1")], [("s", "2")], [("s", "3")]]) (some ["i1", "i2", "i3"])
      = .ok (["i1", "i2", "i3"],
          [⟨[some "a", some "b"], [[("s", "1")], [("s", "2")]], ["i1", "i2"]⟩,
            ⟨[some "c"], [[("s", "3")]], ["i3"]⟩]) := by
  have h := (add_documents_batches genU 2 ["a", "b", "c"]
    [[("s", "1")], [("s", "2")], [("s", "3")]] ["i1", "i2", "i3"]
    (by decide) (by decide) (by decide)).1
  rw [h]
  decide

/-- C5 (amended).  When some element of `documents` is `None`, `add_documents`
raises `AssertionError` before issuing any store call, leaving the collection
unchanged.  (The original claim also covered empty strings; the code's
`assert not any(d is None for d in documents)` does not inspect empty
strings, which pass through and are submitted — see the counterexample.) -/
theorem null_document_assert (gen : Nat → String) (B : Nat)
    (documents : List (Option String)) (metadatas : Option (List Md))
    (ids : Option (List String)) (h : none ∈ documents) :
    add_documents gen B documents metadatas ids = .error .assertionError := by
  have hany : documents.any (fun d => d.isNone) = true :=
    List.any_eq_true.mpr ⟨none, h, rfl⟩
  simp [add_documents, hany]

/-- C5 counterexample.  A call whose only document is the empty string does
not raise: the empty string passes the `None`-only assertion and is submitted
to the store. -/
theorem null_document_assert_counterexample :
    add_documents genU 200 [some ""] (some [[("k", "v")]]) (some ["id0"])
      = .ok (["id0"], [⟨[some ""], [[("k", "v")]], ["id0"]⟩]) := by
  decide

/-- C5 witness: a document list containing `None` aborts with
`AssertionError` and no store call. -/
theorem null_document_assert_witness :
    add_documents genU 200 [some "a", none] (some [[("k", "v")], [("k", "v")]])
        (some ["i1", "i2"])
      = .error .assertionError :=
  null_document_assert genU 200 [some "a", none]
    (some [[("k", "v")], [("k", "v")]]) (some ["i1", "i2"]) (by decide)

/-- C10.  When `metadatas` is shorter than `documents` (`M < N`),
`add_documents` raises no error: `zip` stops at the shorter batched list, so
exactly `ceil(M/B)` store calls are issued, covering only the first
`ceil(M/B)*B` documents (the rest are silently never stored), while the
returned (generated) id list still has one id per document. -/
theorem unequal_lengths_batches (gen : Nat → String) (B : Nat) (docs : List String)
    (mds : List Md) (hB : 0 < B) (hlt : mds.length < docs.length) :
    (add_documents gen B (docs.map some) (some mds) none
        = .ok ((List.range docs.length).map gen,
            (List.range ((mds.length + B - 1) / B)).map
              (fun j => ⟨((docs.map some).drop (j * B)).take B,
                  (mds.drop (j * B)).take B,
                  (((List.range docs.length).map gen).drop (j * B)).take B⟩)))
    ∧ (((List.range ((mds.length + B - 1) / B)).map
            (fun j => ((docs.map some).drop (j * B)).take B)).flatten
        = (docs.take (((mds.length + B - 1) / B) * B)).map some)
    ∧ ((List.range docs.length).map gen).length = docs.length := by
  have hcount : (mds.length + B - 1) / B ≤ (docs.length + B - 1) / B :=
    Nat.div_le_div_right (by omega)
  refine ⟨?_, ?_, by simp⟩
  · simp only [add_documents, map_some_no_none, Bool.false_eq_true, if_false,
      List.length_map]
    unfold batched
    rw [List.length_map, List.length_map, List.length_range,
      zip_map_range_ge _ _ hcount, zip_map_range_le _ _ hcount, List.map_map]
    rfl
  · rw [flatten_batched_slices (docs.map some) B ((mds.length + B - 1) / B),
      (List.map_take some docs _).symm]

/-- C10 witness: three documents with a single metadata entry and batch size 2
issue exactly one (misaligned) store call covering the first two documents,
yet return three generated ids. -/
theorem unequal_lengths_batches_witness :
    add_documents genU 2 (["a", "b", "c"].map some) (some [[("t", "m")]]) none
      = .ok ([genU 0, genU 1, genU 2],
          [⟨[some "a", some "b"], [[("t", "m")]], [genU 0, genU 1]⟩]) := by
  have h := (unequal_lengths_batches genU 2 ["a", "b", "c"] [[("t", "m")]]
    (by decide) (by decide)).1
  rw [h]
  decide

theorem mapE_map {α β γ : Type} (f : β → Except PyErr γ) (h : α → β) :
    ∀ l : List α, mapE f (l.map h) = mapE (fun a => f (h a)) l
  | [] => rfl
  | a :: l => by simp only [List.map_cons, mapE, mapE_map f h l]

/-! ### Claim C4: query clamping and ordering -/

/-- C4.  The value passed to the backing store is
`max(1, min(n_results, count))`: for a nonempty collection it lies in
`[1, count]`; for an empty collection it is `1`, never `0`; querying a
3-chunk collection with `k = 100` passes exactly `3` and returns 3 results;
and the results of any query are in non-decreasing distance order (ordering
supplied by the modelled store contract of spec §6). -/
theorem query_clamps (k : Int) (count : Nat) (entries : List StoredChunk)
    (h3 : entries.length = 3) :
    (0 < count → 1 ≤ nResultsPassed k count ∧ nResultsPassed k count ≤ count)
    ∧ nResultsPassed k 0 = 1
    ∧ nResultsPassed 100 3 = 3
    ∧ (service_query entries 100).results.length = 3
    ∧ List.Sorted (fun a b => a.distance ≤ b.distance) (service_query entries k).results := by
  refine ⟨?_, ?_, by decide, ?_, ?_⟩
  · intro hc
    unfold nResultsPassed
    omega
  · unfold nResultsPassed
    omega
  · have hn : (nResultsPassed 100 3).toNat = 3 := by decide
    simp [service_query, collection_query, h3, hn]
  · exact List.Pairwise.sublist (List.take_sublist _ _)
      (List.sorted_insertionSort _ entries)

/-- C4 witness: a concrete 3-chunk collection queried with `k = 100` (and a
negative `k = -7` against a 7-chunk count for the clamping bound). -/
theorem query_clamps_witness :
    (0 < (7 : Nat) → 1 ≤ nResultsPassed (-7) 7 ∧ nResultsPassed (-7) 7 ≤ (7 : Nat))
    ∧ nResultsPassed (-7) 0 = 1
    ∧ nResultsPassed 100 3 = 3
    ∧ (service_query [⟨"a", "ta", [], 5⟩, ⟨"b", "tb", [], 2⟩, ⟨"c", "tc", [], 9⟩]
        100).results.length = 3
    ∧ List.Sorted (fun a b => a.distance ≤ b.distance)
        (service_query [⟨"a", "ta", [], 5⟩, ⟨"b", "tb", [], 2⟩, ⟨"c", "tc", [], 9⟩]
          (-7)).results :=
  query_clamps (-7) 7 [⟨"a", "ta", [], 5⟩, ⟨"b", "tb", [], 2⟩, ⟨"c", "tc", [], 9⟩]
    (by decide)

/-! ### Claim C6: fail-fast ingestion and the error message -/

/-- C6 (amended).  If chunking one record fails (every earlier record having
chunked successfully), `initialize_db` raises before the single
`add_documents` call, so nothing is added.  When the failing record has
metadata, the raised error carries the formatted message naming that
metadata; when the record is missing its metadata, the f-string in the
`except` handler itself fails and a bare `KeyError("metadata")` propagates
instead — such an error does not name the record's metadata. -/
theorem ingestion_fail_fast (gen : Nat → String) (enc : String → List Nat)
    (dec : List Nat → String) (C O : Nat) (pre post : List FileJson) (r : FileJson)
    (hpre : ∀ p ∈ pre, ∃ v, get_chunks_and_metadatas enc dec C O p = .ok v) :
    (∀ md e, r.metadata = some md → get_chunks_and_metadatas enc dec C O r = .error e →
        initialize_db gen enc dec C O (pre ++ r :: post)
          = .error (.exception ("error reading file with metadata " ++ mdStr md
              ++ ", details follow ... " ++ errStr e)))
    ∧ (∀ t, r.metadata = none → r.document = some t →
        initialize_db gen enc dec C O (pre ++ r :: post)
          = .error (.keyError "metadata")) := by
  have hwrap : ∀ (p : FileJson) (v : List String × List Md),
      get_chunks_and_metadatas enc dec C O p = .ok v →
      (match get_chunks_and_metadatas enc dec C O p with
        | .ok v => Except.ok v
        | .error e =>
          .error (match p.metadata with
            | none => PyErr.keyError "metadata"
            | some md => PyErr.exception
                ("error reading file with metadata " ++ mdStr md
                  ++ ", details follow ... " ++ errStr e))) = .ok v := by
    intro p v hv
    rw [hv]
  constructor
  · intro md e hmd he
    unfold initialize_db
    rw [mapE_error _ pre r post
      (fun p hp => by
        obtain ⟨v, hv⟩ := hpre p hp
        exact ⟨v, hwrap p v hv⟩)
      (by rw [he, hmd])]
  · intro t hmd hdoc
    have hfail : (match get_chunks_and_metadatas enc dec C O r with
        | .ok v => Except.ok v
        | .error e =>
          .error (match r.metadata with
            | none => PyErr.keyError "metadata"
            | some md => PyErr.exception
                ("error reading file with metadata " ++ mdStr md
                  ++ ", details follow ... " ++ errStr e)))
        = .error (PyErr.keyError "metadata") := by
      unfold get_chunks_and_metadatas
      rw [hdoc, hmd]
      cases hcc : chunksCore dec C O (enc t) with
      | error e' => simp [keyGet, hcc]
      | ok chunks => simp [keyGet, hcc]
    unfold initialize_db
    rw [mapE_error _ pre r post
      (fun p hp => by
        obtain ⟨v, hv⟩ := hpre p hp
        exact ⟨v, hwrap p v hv⟩)
      hfail]

/-- C6 counterexample.  A record that has a document but no `metadata` key
makes `initialize_db` raise a bare `KeyError("metadata")` (the error-handling
f-string fails) — not a fatal error whose message names the record's
metadata, which is impossible for a metadata-less record. -/
theorem ingestion_fail_fast_counterexample :
    initialize_db genU charEnc charDec 4 1 [⟨some "ab", none⟩]
      = .error (.keyError "metadata") := by
  decide

/-- C6 witness: a record missing its `document` key but carrying metadata
aborts the whole ingestion with the formatted error naming that metadata, and
no `add_documents` call is made. -/
theorem ingestion_fail_fast_witness :
    initialize_db genU charEnc charDec 4 1 [⟨none, some [("f", "x")]⟩]
      = .error (.exception ("error reading file with metadata " ++ mdStr [("f", "x")]
          ++ ", details follow ... " ++ errStr (.keyError "document"))) :=
  (ingestion_fail_fast genU charEnc charDec 4 1 [] [] ⟨none, some [("f", "x")]⟩
    (by simp)).1 [("f", "x")] (.keyError "document") rfl rfl

/-! ### Claim C7: search-result ingestion -/

/-- C7.  `add_search_results` first discards the items with `None` content
(the result only depends on the filtered list, so a null-content item never
causes a raise and never yields a chunk), raises `AssertionError` when no
items survive, and otherwise ingests each surviving item as one document —
its chunks being the decoded windows of its content — with the metadata
`{title, url}` of that item replicated onto every one of its chunks, all
routed through the shared `add_documents` path. -/
theorem search_results_filter (gen : Nat → String) (enc : String → List Nat)
    (dec : List Nat → String) (C O : Nat) (hC : 0 < C) (hO : O < C)
    (items : List SearchResultItem) :
    (add_search_results gen enc dec C O items
        = add_search_results gen enc dec C O
            (items.filter (fun sr => sr.content.isSome)))
    ∧ (items.filter (fun sr => sr.content.isSome) = [] →
        add_search_results gen enc dec C O items = .error .assertionError)
    ∧ (items.filter (fun sr => sr.content.isSome) ≠ [] →
        add_search_results gen enc dec C O items
          = add_documents gen BATCH_SIZE
              ((((items.filter (fun sr => sr.content.isSome)).map
                  (fun sr => (windowsSpec C (C - O) (enc (sr.content.getD ""))).map
                    dec)).flatten).map some)
              (some (((items.filter (fun sr => sr.content.isSome)).map
                  (fun sr => List.replicate
                    (windowsSpec C (C - O) (enc (sr.content.getD ""))).length
                    (itemMd sr))).flatten))
              none) := by
  have hchunks : ∀ sr ∈ items.filter (fun sr => sr.content.isSome),
      get_chunks_and_metadatas enc dec C O (itemDoc sr)
        = .ok ((windowsSpec C (C - O) (enc (sr.content.getD ""))).map dec,
            List.replicate (windowsSpec C (C - O) (enc (sr.content.getD ""))).length
              (itemMd sr)) := by
    intro sr hsr
    have hsome : sr.content.isSome := (List.mem_filter.mp hsr).2
    obtain ⟨cword, hc⟩ := Option.isSome_iff_exists.mp hsome
    have hdoc : itemDoc sr = ⟨some cword, some (itemMd sr)⟩ := by
      unfold itemDoc
      rw [hc]
    rw [hdoc, hc, get_chunks_eq enc dec hC hO]
    simp
  refine ⟨?_, ?_, ?_⟩
  · unfold add_search_results
    rw [List.filter_filter]
    simp
  · intro hempty
    unfold add_search_results
    rw [hempty]
    simp
  · intro hne
    unfold add_search_results
    have hlen : 0 < ((items.filter (fun sr => sr.content.isSome)).map itemDoc).length := by
      simp only [List.length_map, List.length_pos]
      exact hne
    rw [if_pos hlen, mapE_map, mapE_ok _
      (fun sr => ((windowsSpec C (C - O) (enc (sr.content.getD ""))).map dec,
        List.replicate (windowsSpec C (C - O) (enc (sr.content.getD ""))).length
          (itemMd sr)))
      _ hchunks]
    simp only [List.map_map]
    rfl

/-- C7 witness: of the two search results `[{content: "x"}, {content: None}]`
exactly one document's worth of chunks is stored — a single store call with
the single chunk `"x"` carrying that item's `{title, url}` metadata — and the
null item causes no raise. -/
theorem search_results_filter_witness :
    add_search_results genU charEnc charDec 4 1
        [⟨"u1", some "t1", some "x", "q"⟩, ⟨"u2", some "t2", none, "q"⟩]
      = .ok ([genU 0],
          [⟨[some "x"], [[("title", "t1"), ("url", "u1")]], [genU 0]⟩]) := by
  have h := (search_results_filter genU charEnc charDec 4 1 (by decide) (by decide)
    [⟨"u1", some "t1", some "x", "q"⟩, ⟨"u2", some "t2", none, "q"⟩]).2.2
    (by decide)
  rw [h]
  decide

/-! ### Claim C8: `overlap >= chunk_size` is not caught at construction -/

theorem chunksCore_zero_stride (dec : List Nat → String) (C O : Nat)
    (hCO : C = O) (hC : 0 < C) (d : List Nat) :
    chunksCore dec C O d = .error (.valueError "slice step cannot be zero") := by
  subst hCO
  obtain ⟨C', rfl⟩ : ∃ C', C = C' + 1 := ⟨C - 1, by omega⟩
  unfold chunksCore
  rw [List.range_succ_eq_map]
  have hz : ((C' + 1 : Nat) : Int) - ((C' + 1 : Nat) : Int) = 0 := sub_self _
  simp [mapE, pySlice, hz]

/-- C8 (amended).  `__init__` performs no validation of `overlap` against
`chunk_size`, so for `overlap ≥ chunk_size` construction succeeds; with
`overlap = chunk_size` the first chunking call — not construction — fails,
raising the `ValueError` from the zero-step slice
`document[i::chunk_size - overlap]`. -/
theorem misconfigured_overlap (cfg : Configurator)
    (_hmis : cfg.data_config.db_chunk_size ≤ cfg.data_config.db_chunk_overlap) :
    ChromaDBService.init cfg = .ok { config := cfg }
    ∧ (∀ t md, cfg.data_config.db_chunk_size = cfg.data_config.db_chunk_overlap →
        0 < cfg.data_config.db_chunk_size →
        cfg.data_config.embedding_model_tokenizer = "cl100k_base" →
        ChromaDBService.get_chunks_and_metadatas { config := cfg } ⟨some t, some md⟩
          = .error (.valueError "slice step cannot be zero")) := by
  refine ⟨rfl, ?_⟩
  intro t md heq hpos htok
  unfold ChromaDBService.get_chunks_and_metadatas
  rw [htok]
  simp [tt_get_encoding, keyGet, chunksCore_zero_stride charDec _ _ heq hpos]

/-- C8 counterexample.  With `chunk_size = overlap = 4` the service constructs
successfully — no configuration error is raised at construction time — and
the first chunking call is the point of failure. -/
theorem misconfigured_overlap_counterexample :
    ChromaDBService.init ⟨⟨"text-embedding-3-small", "cl100k_base", "db", "ravana",
        "cosine", 4, 4⟩⟩
      = .ok ⟨⟨⟨"text-embedding-3-small", "cl100k_base", "db", "ravana",
          "cosine", 4, 4⟩⟩⟩
    ∧ ChromaDBService.get_chunks_and_metadatas
        ⟨⟨⟨"text-embedding-3-small", "cl100k_base", "db", "ravana", "cosine", 4, 4⟩⟩⟩
        ⟨some "abc", some [("k", "v")]⟩
      = .error (.valueError "slice step cannot be zero") := by
  exact ⟨rfl, by decide⟩

/-- C8 witness for the amended statement, at `chunk_size = overlap = 3`. -/
theorem misconfigured_overlap_witness :
    ChromaDBService.init ⟨⟨"m", "cl100k_base", "db", "n", "cosine", 3, 3⟩⟩
      = .ok ⟨⟨⟨"m", "cl100k_base", "db", "n", "cosine", 3, 3⟩⟩⟩
    ∧ ChromaDBService.get_chunks_and_metadatas
        ⟨⟨⟨"m", "cl100k_base", "db", "n", "cosine", 3, 3⟩⟩⟩ ⟨some "xy", some []⟩
      = .error (.valueError "slice step cannot be zero") := by
  have h := misconfigured_overlap ⟨⟨"m", "cl100k_base", "db", "n", "cosine", 3, 3⟩⟩
    (by decide)
  exact ⟨h.1, h.2 "xy" [] rfl (by decide) rfl⟩

/-! ### Claim C9: tokenizer errors are deferred to call time -/

/-- C9 (amended).  An unknown tokenizer name is not detected at construction:
`__init__` only wraps `tiktoken.get_encoding` inside the `encode`/`decode`/
`get_tokens` lambdas, so construction succeeds and the `ValueError` surfaces
on the first `encode` (or `get_tokens`) call. -/
theorem tokenizer_error_deferred (cfg : Configurator)
    (hbad : cfg.data_config.embedding_model_tokenizer ≠ "cl100k_base") :
    ChromaDBService.init cfg = .ok { config := cfg }
    ∧ (∀ x, ChromaDBService.encode { config := cfg } x
        = .error (.valueError
            ("Unknown encoding " ++ cfg.data_config.embedding_model_tokenizer)))
    ∧ (∀ x, ChromaDBService.get_tokens { config := cfg } x
        = .error (.valueError
            ("Unknown encoding " ++ cfg.data_config.embedding_model_tokenizer))) := by
  refine ⟨rfl, ?_, ?_⟩
  · intro x
    simp [ChromaDBService.encode, tt_get_encoding, hbad]
  · intro x
    simp [ChromaDBService.get_tokens, ChromaDBService.encode, tt_get_encoding, hbad]

/-- C9 counterexample.  A service configured with the unknown tokenizer name
`"bogus"` constructs without error; the `ValueError` is raised only when
`encode` is first called. -/
theorem tokenizer_error_deferred_counterexample :
    ChromaDBService.init ⟨⟨"m", "bogus", "db", "n", "cosine", 4, 1⟩⟩
      = .ok ⟨⟨⟨"m", "bogus", "db", "n", "cosine", 4, 1⟩⟩⟩
    ∧ ChromaDBService.encode ⟨⟨⟨"m", "bogus", "db", "n", "cosine", 4, 1⟩⟩⟩ "a"
      = .error (.valueError "Unknown encoding bogus") := by
  exact ⟨rfl, by decide⟩

/-- C9 witness for the amended statement, with the unknown name `"nope"`. -/
theorem tokenizer_error_deferred_witness :
    ChromaDBService.init ⟨⟨"m", "nope", "db", "n", "cosine", 4, 1⟩⟩
      = .ok ⟨⟨⟨"m", "nope", "db", "n", "cosine", 4, 1⟩⟩⟩
    ∧ ChromaDBService.encode ⟨⟨⟨"m", "nope", "db", "n", "cosine", 4, 1⟩⟩⟩ "hello"
      = .error (.valueError ("Unknown encoding " ++ "nope"))
    ∧ ChromaDBService.get_tokens ⟨⟨⟨"m", "nope", "db", "n", "cosine", 4, 1⟩⟩⟩ "hello"
      = .error (.valueError ("Unknown encoding " ++ "nope")) := by
  have h := tokenizer_error_deferred ⟨⟨"m", "nope", "db", "n", "cosine", 4, 1⟩⟩
    (by decide)
  exact ⟨h.1, h.2.1 "hello", h.2.2 "hello"⟩

end Ravana
